import Mathlib

/-! The functions format_root_device and ensure_root_path_unmounted of format.c.

A shallow embedding of the two functions of `format.c`.  The collaborators the
file calls but does not define (the root table lookup, the mount-table
functions of `mtdutils/mounts.h` and the flash functions of
`mtdutils/mtdutils.h`) are parameters: a record `Collab σ` of functions over an
arbitrary collaborator state `σ`.  Every collaborator call is recorded, with
its arguments and its result, in a chronological call trace; every `LOGW`
diagnostic is recorded in a separate log.
-/

namespace Recovery

/-! ## Data model -/

/-- Modelled from the spec: the `device` pointer of a root descriptor (the
struct is declared in roots.c, which is not part of the sources).  The code
only compares the pointer with the flash sentinel `g_mtd_device`; every other
non-NULL pointer is a block device path. -/
inductive Device where
  | g_mtd_device
  | path (p : String)
  deriving DecidableEq, Repr

/-- Modelled from the spec: the `filesystem` pointer of a root descriptor,
either the sentinel `g_raw` (compared by address) or some other string
(compared by content with `strcmp`).  A NULL filesystem is not represented:
`strcmp` on it is undefined. -/
inductive Filesystem where
  | g_raw
  | named (s : String)
  deriving DecidableEq, Repr

/-- Modelled from the spec: the root descriptor `RootInfo` (declared in
roots.c, not part of the sources), with the fields format.c reads.  Pointer
fields that may be NULL are options. -/
structure RootInfo where
  name : String
  device : Option Device
  partition_name : Option String
  mount_point : Option String
  filesystem : Filesystem
  deriving DecidableEq, Repr

/-- Modelled from the spec: an entry of the mount snapshot
(`mtdutils/mounts.h`, not part of the sources). -/
structure MountedVolume where
  device : String
  mount_point : String
  filesystem : String
  deriving DecidableEq, Repr

/-- Modelled from the spec: the partition handle `MtdPartition` of the flash
collaborator (`mtdutils/mtdutils.h`, not part of the sources), opaque to
format.c. -/
structure MtdPartition where
  handle : Nat
  deriving DecidableEq, Repr

/-- Modelled from the spec: the write context `MtdWriteContext` of the flash
collaborator (`mtdutils/mtdutils.h`, not part of the sources), opaque to
format.c. -/
structure MtdWriteContext where
  handle : Nat
  deriving DecidableEq, Repr

/-- One collaborator call, with its arguments and the value it returned. -/
inductive Event where
  | get_root_info_for_path (root_path : String) (ret : Option RootInfo)
  | scan_mounted_volumes (ret : Int)
  | find_mounted_volume_by_mount_point (mount_point : String) (ret : Option MountedVolume)
  | unmount_mounted_volume (volume : MountedVolume) (ret : Int)
  | mtd_scan_partitions (ret : Int)
  | mtd_find_partition_by_name (name : Option String) (ret : Option MtdPartition)
  | mtd_write_partition (partition : MtdPartition) (ret : Option MtdWriteContext)
  | mtd_erase_blocks (ctx : MtdWriteContext) (blocks : Int) (ret : Int)
  | mtd_write_close (ctx : MtdWriteContext) (ret : Int)
  deriving DecidableEq, Repr

/-- Modelled from the spec: the collaborator functions format.c calls and does
not define, with the C signatures of their call sites.  The root table is
read-only after process start, so its lookup is a function of the path alone;
the mount and flash functions read and change the collaborator state `σ`, and
may return any value of their result type.  The `int` and `off_t` results are
integers: format.c only compares them (with 0 and -1) and does no arithmetic
on them. -/
structure Collab (σ : Type) where
  get_root_info_for_path : String → Option RootInfo
  scan_mounted_volumes : σ → Int × σ
  find_mounted_volume_by_mount_point : String → σ → Option MountedVolume × σ
  unmount_mounted_volume : MountedVolume → σ → Int × σ
  mtd_scan_partitions : σ → Int × σ
  mtd_find_partition_by_name : Option String → σ → Option MtdPartition × σ
  mtd_write_partition : MtdPartition → σ → Option MtdWriteContext × σ
  mtd_erase_blocks : MtdWriteContext → Int → σ → Int × σ
  mtd_write_close : MtdWriteContext → σ → Int × σ

/-- The state a function of format.c runs in: the collaborator state, the
calls made so far (oldest first) and the diagnostics written so far. -/
structure World (σ : Type) where
  ext : σ
  trace : List Event
  log : List String

/-- A world in which nothing has been called or logged yet. -/
def World.init {σ : Type} (s : σ) : World σ := ⟨s, [], []⟩

/-- The `LOGW` macro: one line on the diagnostic stream. -/
def LOGW {σ : Type} (w : World σ) (msg : String) : World σ :=
  { w with log := w.log ++ [msg] }

/-! ## Traced collaborator calls -/

namespace Ext

variable {σ : Type}

/-- A call of `get_root_info_for_path`, recorded in the trace. -/
def get_root_info_for_path (E : Collab σ) (root_path : String) (w : World σ) :
    Option RootInfo × World σ :=
  let r := E.get_root_info_for_path root_path
  (r, { w with trace := w.trace ++ [Event.get_root_info_for_path root_path r] })

/-- A call of `scan_mounted_volumes`, recorded in the trace. -/
def scan_mounted_volumes (E : Collab σ) (w : World σ) : Int × World σ :=
  let r := E.scan_mounted_volumes w.ext
  (r.1, { w with ext := r.2, trace := w.trace ++ [Event.scan_mounted_volumes r.1] })

/-- A call of `find_mounted_volume_by_mount_point`, recorded in the trace. -/
def find_mounted_volume_by_mount_point (E : Collab σ) (mount_point : String) (w : World σ) :
    Option MountedVolume × World σ :=
  let r := E.find_mounted_volume_by_mount_point mount_point w.ext
  (r.1, { w with ext := r.2,
                 trace := w.trace ++ [Event.find_mounted_volume_by_mount_point mount_point r.1] })

/-- A call of `unmount_mounted_volume`, recorded in the trace. -/
def unmount_mounted_volume (E : Collab σ) (volume : MountedVolume) (w : World σ) :
    Int × World σ :=
  let r := E.unmount_mounted_volume volume w.ext
  (r.1, { w with ext := r.2, trace := w.trace ++ [Event.unmount_mounted_volume volume r.1] })

/-- A call of `mtd_scan_partitions`, recorded in the trace. -/
def mtd_scan_partitions (E : Collab σ) (w : World σ) : Int × World σ :=
  let r := E.mtd_scan_partitions w.ext
  (r.1, { w with ext := r.2, trace := w.trace ++ [Event.mtd_scan_partitions r.1] })

/-- A call of `mtd_find_partition_by_name`, recorded in the trace. -/
def mtd_find_partition_by_name (E : Collab σ) (name : Option String) (w : World σ) :
    Option MtdPartition × World σ :=
  let r := E.mtd_find_partition_by_name name w.ext
  (r.1, { w with ext := r.2, trace := w.trace ++ [Event.mtd_find_partition_by_name name r.1] })

/-- A call of `mtd_write_partition`, recorded in the trace. -/
def mtd_write_partition (E : Collab σ) (partition : MtdPartition) (w : World σ) :
    Option MtdWriteContext × World σ :=
  let r := E.mtd_write_partition partition w.ext
  (r.1, { w with ext := r.2, trace := w.trace ++ [Event.mtd_write_partition partition r.1] })

/-- A call of `mtd_erase_blocks`, recorded in the trace. -/
def mtd_erase_blocks (E : Collab σ) (ctx : MtdWriteContext) (blocks : Int) (w : World σ) :
    Int × World σ :=
  let r := E.mtd_erase_blocks ctx blocks w.ext
  (r.1, { w with ext := r.2, trace := w.trace ++ [Event.mtd_erase_blocks ctx blocks r.1] })

/-- A call of `mtd_write_close`, recorded in the trace. -/
def mtd_write_close (E : Collab σ) (ctx : MtdWriteContext) (w : World σ) : Int × World σ :=
  let r := E.mtd_write_close ctx w.ext
  (r.1, { w with ext := r.2, trace := w.trace ++ [Event.mtd_write_close ctx r.1] })

end Ext

/-! ## C strings -/

/-- The terminator of a C string. -/
def NUL : Char := Char.ofNat 0

/-- The loop `while (*c != NUL && *c != ':') c++;` of format_root_device: the
suffix of the string the pointer `c` stops at. -/
def skipToColon : List Char → List Char
  | [] => []
  | ch :: rest => if ch ≠ NUL ∧ ch ≠ ':' then skipToColon rest else ch :: rest

/-- The read `c[i]` of a C string: past its last character stands the
terminator. -/
def charAt (c : List Char) (i : Nat) : Char := c.getD i NUL

/-- The `%s` conversion of a string pointer that may be NULL. -/
def fmtStr : Option String → String
  | some s => s
  | none => "(null)"

/-! ## The diagnostics of format_root_device

The format strings of the `LOGW` calls, in the order of format.c. -/

/-- Line 41. -/
def msg_bad_root (root : String) : String :=
  "format_root_device: bad root name \"" ++ root ++ "\"\n"

/-- Line 47. -/
def msg_cant_resolve (root : String) : String :=
  "format_root_device: can\x27t resolve \"" ++ root ++ "\"\n"

/-- Line 55. -/
def msg_cant_unmount (root : String) : String :=
  "format_root_device: can\x27t unmount \"" ++ root ++ "\"\n"

/-- Line 67. -/
def msg_cant_find (partition_name : Option String) : String :=
  "format_root_device: can\x27t find mtd partition \"" ++ fmtStr partition_name ++ "\"\n"

/-- Line 74. -/
def msg_cant_open (root : String) : String :=
  "format_root_device: can\x27t open \"" ++ root ++ "\"\n"

/-- Line 77. -/
def msg_cant_erase (root : String) : String :=
  "format_root_device: can\x27t erase \"" ++ root ++ "\"\n"

/-- Line 81. -/
def msg_cant_close (root : String) : String :=
  "format_root_device: can\x27t close \"" ++ root ++ "\"\n"

/-- Line 89. -/
def msg_non_mtd (root : String) : String :=
  "format_root_device: can\x27t handle non-mtd device \"" ++ root ++ "\"\n"

/-! ## The functions of format.c -/

section Functions

variable {σ : Type}

/-- The function `ensure_root_path_unmounted` of format.c lines 93 to 122. -/
def ensure_root_path_unmounted (E : Collab σ) (root_path : String) (w : World σ) :
    Int × World σ :=
  let (info, w) := Ext.get_root_info_for_path E root_path w
  match info with
  | none => (-1, w)
  | some info =>
    match info.mount_point with
    | none => (0, w)
    | some mount_point =>
      let (ret, w) := Ext.scan_mounted_volumes E w
      if ret < 0 then (ret, w)
      else
        let (volume, w) := Ext.find_mounted_volume_by_mount_point E mount_point w
        match volume with
        | none => (0, w)
        | some volume => Ext.unmount_mounted_volume E volume w

/-- The last two lines of format_root_device (format.c lines 89 and 90), which
every path that formats nothing and did not return earlier falls through to. -/
def non_mtd_failure (root : String) (w : World σ) : Int × World σ :=
  (-1, LOGW w (msg_non_mtd root))

/-- The block `if (info->device == g_mtd_device) ...` of format_root_device and
the fall-through after it (format.c lines 62 to 90). -/
def format_device (E : Collab σ) (root : String) (info : RootInfo) (device : Device)
    (w : World σ) : Int × World σ :=
  if device = Device.g_mtd_device then
    let (_, w) := Ext.mtd_scan_partitions E w
    let (partition, w) := Ext.mtd_find_partition_by_name E info.partition_name w
    match partition with
    | none => (-1, LOGW w (msg_cant_find info.partition_name))
    | some partition =>
      if info.filesystem = Filesystem.g_raw ∨ info.filesystem = Filesystem.named "yaffs2" then
        let (write, w) := Ext.mtd_write_partition E partition w
        match write with
        | none => (-1, LOGW w (msg_cant_open root))
        | some write =>
          let (erased, w) := Ext.mtd_erase_blocks E write (-1) w
          if erased = -1 then
            let w := LOGW w (msg_cant_erase root)
            let (_, w) := Ext.mtd_write_close E write w
            (-1, w)
          else
            let (closed, w) := Ext.mtd_write_close E write w
            if closed ≠ 0 then (-1, LOGW w (msg_cant_close root))
            else (0, w)
      else non_mtd_failure root w
  else non_mtd_failure root w

/-- The function `format_root_device` of format.c lines 30 to 91. -/
def format_root_device (E : Collab σ) (root : String) (w : World σ) : Int × World σ :=
  let c := skipToColon root.data
  if charAt c 0 ≠ ':' ∨ charAt c 1 ≠ NUL then
    (-1, LOGW w (msg_bad_root root))
  else
    let (info, w) := Ext.get_root_info_for_path E root w
    match info with
    | none => (-1, LOGW w (msg_cant_resolve root))
    | some info =>
      match info.device with
      | none => (-1, LOGW w (msg_cant_resolve root))
      | some device =>
        match info.mount_point with
        | none => format_device E root info device w
        | some _ =>
          let (ret, w) := ensure_root_path_unmounted E root w
          if ret < 0 then (ret, LOGW w (msg_cant_unmount root))
          else format_device E root info device w

end Functions

/-! ## Vocabulary of the properties -/

/-- A C string: no character of it is the terminator. -/
def IsCString (s : String) : Prop := NUL ∉ s.data

/-- A bare root reference `<name>:`: a (possibly empty) run of non-colon
characters followed by exactly one colon at the end of the string. -/
def IsBareRoot (s : String) : Prop :=
  ':' ∉ s.data.dropLast ∧ s.data.getLast? = some ':'

instance (s : String) : Decidable (IsCString s) :=
  inferInstanceAs (Decidable (NUL ∉ s.data))

instance (s : String) : Decidable (IsBareRoot s) :=
  inferInstanceAs (Decidable (':' ∉ s.data.dropLast ∧ s.data.getLast? = some ':'))

/-- Unmount calls. -/
def Event.isUnmount : Event → Bool
  | .unmount_mounted_volume _ _ => true
  | _ => false

/-- Calls of the mount-table collaborator: scan, find, unmount. -/
def Event.isMount : Event → Bool
  | .scan_mounted_volumes _ => true
  | .find_mounted_volume_by_mount_point _ _ => true
  | .unmount_mounted_volume _ _ => true
  | _ => false

/-- Calls of the flash collaborator: scan, find, open, erase, close. -/
def Event.isFlash : Event → Bool
  | .mtd_scan_partitions _ => true
  | .mtd_find_partition_by_name _ _ => true
  | .mtd_write_partition _ _ => true
  | .mtd_erase_blocks _ _ _ => true
  | .mtd_write_close _ _ => true
  | _ => false

/-- Open-for-write calls. -/
def Event.isOpen : Event → Bool
  | .mtd_write_partition _ _ => true
  | _ => false

/-- Erase calls. -/
def Event.isErase : Event → Bool
  | .mtd_erase_blocks _ _ _ => true
  | _ => false

/-- Close calls. -/
def Event.isClose : Event → Bool
  | .mtd_write_close _ _ => true
  | _ => false

/-- Successful open-for-write calls. -/
def Event.isOpened : Event → Bool
  | .mtd_write_partition _ (some _) => true
  | _ => false

/-- A call that reported failure, by the test format.c applies to its result:
a negative mount-table scan or unmount, a partition that is not found, a
partition that cannot be opened, an erase that returns -1, a close that returns
non-zero.  A mount point that is absent from the snapshot is not a failure, and
the result of the partition-table scan is ignored by the code. -/
def Event.failed : Event → Bool
  | .scan_mounted_volumes ret => decide (ret < 0)
  | .unmount_mounted_volume _ ret => decide (ret < 0)
  | .mtd_find_partition_by_name _ ret => ret.isNone
  | .mtd_write_partition _ ret => ret.isNone
  | .mtd_erase_blocks _ _ ret => decide (ret = -1)
  | .mtd_write_close _ ret => decide (ret ≠ 0)
  | _ => false

/-- What a fresh look at the mount table says about a mount point: the
snapshot is rescanned and the mount point is searched in it.  Gives the volume
found (none when the scan fails or the mount point is not mounted) and the
collaborator state after the look. -/
def probe_mount {σ : Type} (E : Collab σ) (mount_point : String) (s : σ) :
    Option MountedVolume × σ :=
  if (E.scan_mounted_volumes s).1 < 0 then (none, (E.scan_mounted_volumes s).2)
  else E.find_mounted_volume_by_mount_point mount_point (E.scan_mounted_volumes s).2

/-- The unsupported-device failure of format_root_device: the return through
the last two lines of the function, -1 after the diagnostic of line 89. -/
def IsUnsupportedDeviceFailure {σ : Type} (root : String) (r : Int × World σ) : Prop :=
  r.1 = -1 ∧ r.2.log.getLast? = some (msg_non_mtd root)

instance {σ : Type} (root : String) (r : Int × World σ) :
    Decidable (IsUnsupportedDeviceFailure root r) :=
  inferInstanceAs (Decidable (r.1 = -1 ∧ r.2.log.getLast? = some (msg_non_mtd root)))

/-- The runs of the flash block of format_root_device (lines 63 to 90, device
is the flash device): the status returned, the flash calls made and the
diagnostics written. -/
inductive FlashOutcome (root : String) (info : RootInfo) : Int → List Event → List String → Prop
  | not_found (rs : Int) :
      FlashOutcome root info (-1)
        [.mtd_scan_partitions rs, .mtd_find_partition_by_name info.partition_name none]
        [msg_cant_find info.partition_name]
  | unsupported (rs : Int) (p : MtdPartition)
      (hfs : ¬ (info.filesystem = Filesystem.g_raw ∨ info.filesystem = Filesystem.named "yaffs2")) :
      FlashOutcome root info (-1)
        [.mtd_scan_partitions rs, .mtd_find_partition_by_name info.partition_name (some p)]
        [msg_non_mtd root]
  | open_failed (rs : Int) (p : MtdPartition)
      (hfs : info.filesystem = Filesystem.g_raw ∨ info.filesystem = Filesystem.named "yaffs2") :
      FlashOutcome root info (-1)
        [.mtd_scan_partitions rs, .mtd_find_partition_by_name info.partition_name (some p),
         .mtd_write_partition p none]
        [msg_cant_open root]
  | erase_failed (rs : Int) (p : MtdPartition) (c : MtdWriteContext) (rc : Int)
      (hfs : info.filesystem = Filesystem.g_raw ∨ info.filesystem = Filesystem.named "yaffs2") :
      FlashOutcome root info (-1)
        [.mtd_scan_partitions rs, .mtd_find_partition_by_name info.partition_name (some p),
         .mtd_write_partition p (some c), .mtd_erase_blocks c (-1) (-1), .mtd_write_close c rc]
        [msg_cant_erase root]
  | close_failed (rs : Int) (p : MtdPartition) (c : MtdWriteContext) (re rc : Int)
      (hfs : info.filesystem = Filesystem.g_raw ∨ info.filesystem = Filesystem.named "yaffs2")
      (hre : re ≠ -1) (hrc : rc ≠ 0) :
      FlashOutcome root info (-1)
        [.mtd_scan_partitions rs, .mtd_find_partition_by_name info.partition_name (some p),
         .mtd_write_partition p (some c), .mtd_erase_blocks c (-1) re, .mtd_write_close c rc]
        [msg_cant_close root]
  | formatted (rs : Int) (p : MtdPartition) (c : MtdWriteContext) (re : Int)
      (hfs : info.filesystem = Filesystem.g_raw ∨ info.filesystem = Filesystem.named "yaffs2")
      (hre : re ≠ -1) :
      FlashOutcome root info 0
        [.mtd_scan_partitions rs, .mtd_find_partition_by_name info.partition_name (some p),
         .mtd_write_partition p (some c), .mtd_erase_blocks c (-1) re, .mtd_write_close c 0]
        []

/-- The unmount step of a format does not fail and leaves the collaborators in
the state `su`: either the descriptor has no mount point (nothing is called),
or a fresh scan of the mount table succeeds and does not find the mount point,
or it finds the mount point and the unmount of the volume found does not
return a negative status. -/
def UnmountStepLeaves {σ : Type} (E : Collab σ) (info : RootInfo) (s su : σ) : Prop :=
  (info.mount_point = none ∧ su = s) ∨
  (∃ mp, info.mount_point = some mp ∧ ¬ (E.scan_mounted_volumes s).1 < 0 ∧
    (probe_mount E mp s).1 = none ∧ su = (probe_mount E mp s).2) ∨
  (∃ mp v, info.mount_point = some mp ∧ (probe_mount E mp s).1 = some v ∧
    ¬ (E.unmount_mounted_volume v (probe_mount E mp s).2).1 < 0 ∧
    su = (E.unmount_mounted_volume v (probe_mount E mp s).2).2)

/-- What the flash collaborator answers to the partition find that follows a
partition-table scan made in state `s`. -/
def flash_found {σ : Type} (E : Collab σ) (name : Option String) (s : σ) :
    Option MtdPartition × σ :=
  E.mtd_find_partition_by_name name (E.mtd_scan_partitions s).2

/-- What the flash collaborator answers to the open-for-write of `p` that
follows that find. -/
def flash_opened {σ : Type} (E : Collab σ) (name : Option String) (p : MtdPartition) (s : σ) :
    Option MtdWriteContext × σ :=
  E.mtd_write_partition p (flash_found E name s).2

/-- What the flash collaborator answers to the erase of everything (-1 blocks)
on `c` that follows that open. -/
def flash_erased {σ : Type} (E : Collab σ) (name : Option String) (p : MtdPartition)
    (c : MtdWriteContext) (s : σ) : Int × σ :=
  E.mtd_erase_blocks c (-1) (flash_opened E name p s).2

/-- What the flash collaborator answers to the close of `c` that follows that
erase. -/
def flash_closed {σ : Type} (E : Collab σ) (name : Option String) (p : MtdPartition)
    (c : MtdWriteContext) (s : σ) : Int × σ :=
  E.mtd_write_close c (flash_erased E name p c s).2

/-- The reference definition of ensure_root_path_unmounted, case by case: the
status returned and the calls made are written out for each outcome of the
lookup, of the fresh scan, of the search and of the unmount. -/
def ensure_root_path_unmounted_ref {σ : Type} (E : Collab σ) (root_path : String)
    (w : World σ) : Int × World σ :=
  let lookup := Event.get_root_info_for_path root_path (E.get_root_info_for_path root_path)
  match E.get_root_info_for_path root_path with
  | none =>
    -- unknown root: -1 and no mount call
    (-1, ⟨w.ext, w.trace ++ [lookup], w.log⟩)
  | some info =>
    match info.mount_point with
    | none =>
      -- no mount point: 0, no scan and no unmount
      (0, ⟨w.ext, w.trace ++ [lookup], w.log⟩)
    | some mount_point =>
      -- one fresh scan
      let scan := E.scan_mounted_volumes w.ext
      if scan.1 < 0 then
        -- the scan fails: its code, no find and no unmount
        (scan.1, ⟨scan.2, w.trace ++ [lookup, .scan_mounted_volumes scan.1], w.log⟩)
      else
        let found := E.find_mounted_volume_by_mount_point mount_point scan.2
        match found.1 with
        | none =>
          -- not in the snapshot: 0 and no unmount
          (0, ⟨found.2,
               w.trace ++ [lookup, .scan_mounted_volumes scan.1,
                           .find_mounted_volume_by_mount_point mount_point none],
               w.log⟩)
        | some volume =>
          -- exactly one unmount, of the volume found; its result unchanged
          let unmounted := E.unmount_mounted_volume volume found.2
          (unmounted.1, ⟨unmounted.2,
               w.trace ++ [lookup, .scan_mounted_volumes scan.1,
                           .find_mounted_volume_by_mount_point mount_point (some volume),
                           .unmount_mounted_volume volume unmounted.1],
               w.log⟩)

/-! ## A sample device

A small simulated device, on which the functions are run at concrete inputs. -/

/-- State of the simulated device. -/
structure Sim where
  /-- The live mount table. -/
  mounts : List MountedVolume
  /-- The volumes the last mount-table scan saw. -/
  snapshot : List MountedVolume
  /-- Mount points whose unmount is refused (device busy). -/
  busy : List String
  /-- Names of the flash partitions; the index is the partition handle. -/
  flash : List String
  /-- Whether the partition table has been scanned. -/
  scanned : Bool
  /-- Handles of the partitions erased so far. -/
  erased : List Nat
  /-- Handles of the partitions whose erase fails. -/
  worn : List Nat
  /-- Whether closing a write session reports an error. -/
  close_fails : Bool
  deriving DecidableEq, Repr

/-- The root table of the simulated device. -/
def sampleRoots : List RootInfo :=
  [ ⟨"BOOT:", some Device.g_mtd_device, some "boot", none, Filesystem.g_raw⟩,
    ⟨"CACHE:", some Device.g_mtd_device, some "cache", some "/cache", Filesystem.named "yaffs2"⟩,
    ⟨"DATA:", some Device.g_mtd_device, some "userdata", some "/data", Filesystem.named "ext3"⟩,
    ⟨"MISC:", some Device.g_mtd_device, some "misc", none, Filesystem.named "ext3"⟩,
    ⟨"SDCARD:", some (Device.path "/dev/block/mmcblk0p1"), none, some "/sdcard",
      Filesystem.named "vfat"⟩,
    ⟨"SYSTEM:", some Device.g_mtd_device, some "system", some "/system", Filesystem.named "yaffs2"⟩,
    ⟨"TMP:", none, none, some "/tmp", Filesystem.named "tmpfs"⟩ ]

/-- The collaborators of the simulated device. -/
def sampleCollab : Collab Sim where
  get_root_info_for_path p :=
    if ':' ∈ p.data then
      sampleRoots.find? (fun r => r.name.data = p.data.takeWhile (fun ch => ch ≠ ':') ++ [':'])
    else none
  scan_mounted_volumes s := (0, { s with snapshot := s.mounts })
  find_mounted_volume_by_mount_point mp s := (s.snapshot.find? (fun v => v.mount_point = mp), s)
  unmount_mounted_volume v s :=
    if v.mount_point ∈ s.busy then (-1, s)
    else (0, { s with mounts := s.mounts.filter (fun m => m.mount_point ≠ v.mount_point) })
  mtd_scan_partitions s := (s.flash.length, { s with scanned := true })
  mtd_find_partition_by_name name s :=
    match name with
    | none => (none, s)
    | some n =>
      if s.scanned ∧ n ∈ s.flash then (some ⟨s.flash.indexOf n⟩, s) else (none, s)
  mtd_write_partition p s := (some ⟨p.handle⟩, s)
  mtd_erase_blocks ctx _ s :=
    if ctx.handle ∈ s.worn then (-1, s) else (0, { s with erased := s.erased ++ [ctx.handle] })
  mtd_write_close _ s := (if s.close_fails then -1 else 0, s)

/-- A state of the simulated device: /system, /data and /sdcard are mounted,
/data is busy, and the flash has the partitions boot, misc, system and userdata
(no cache partition). -/
def sampleState : Sim where
  mounts := [⟨"/dev/block/mtdblock3", "/system", "yaffs2"⟩,
             ⟨"/dev/block/mtdblock5", "/data", "ext3"⟩,
             ⟨"/dev/block/mmcblk0p1", "/sdcard", "vfat"⟩]
  snapshot := []
  busy := ["/data"]
  flash := ["boot", "misc", "system", "userdata"]
  scanned := false
  erased := []
  worn := []
  close_fails := false

/-! ## The validation loop -/

theorem NUL_ne_colon : NUL ≠ ':' := by decide

theorem charAt_skipToColon_iff (l : List Char) (hn : NUL ∉ l) :
    (charAt (skipToColon l) 0 = ':' ∧ charAt (skipToColon l) 1 = NUL) ↔
      ∃ name : List Char, ':' ∉ name ∧ l = name ++ [':'] := by
  induction l with
  | nil =>
    simp [skipToColon, charAt, NUL_ne_colon]
  | cons ch rest ih =>
    have hch : ch ≠ NUL := fun h => hn (by simp [h])
    have hrest : NUL ∉ rest := fun h => hn (by simp [h])
    by_cases hc : ch = ':'
    · subst hc
      have hskip : skipToColon (':' :: rest) = ':' :: rest := by simp [skipToColon]
      rw [hskip]
      constructor
      · rintro ⟨-, h1⟩
        refine ⟨[], by simp, ?_⟩
        cases rest with
        | nil => rfl
        | cons b t =>
          exfalso
          simp [charAt] at h1
          exact hrest (by simp [h1])
      · rintro ⟨name, hname, heq⟩
        cases name with
        | nil =>
          simp at heq
          subst heq
          simp [charAt]
        | cons a t =>
          simp at heq
          exact absurd heq.1.symm (by intro h; exact hname (by simp [h]))
    · have hskip : skipToColon (ch :: rest) = skipToColon rest := by
        simp [skipToColon, hch, hc]
      rw [hskip, ih hrest]
      constructor
      · rintro ⟨name, hname, heq⟩
        refine ⟨ch :: name, ?_, by simp [heq]⟩
        simp only [List.mem_cons, not_or]
        exact ⟨fun h => hc h.symm, hname⟩
      · rintro ⟨name, hname, heq⟩
        cases name with
        | nil =>
          simp at heq
          exact absurd heq.1 hc
        | cons a t =>
          simp at heq
          refine ⟨t, fun h => hname (by simp [h]), heq.2⟩

/-- A bare root is a colon-free name followed by one colon. -/
theorem isBareRoot_iff (s : String) :
    IsBareRoot s ↔ ∃ name : List Char, ':' ∉ name ∧ s.data = name ++ [':'] := by
  unfold IsBareRoot
  constructor
  · rintro ⟨h1, h2⟩
    refine ⟨s.data.dropLast, h1, ?_⟩
    rcases List.eq_nil_or_concat s.data with h | ⟨l, b, h⟩
    · rw [h] at h2
      simp at h2
    · rw [h] at h2 ⊢
      simp at h2
      simp [h2]
  · rintro ⟨name, hname, heq⟩
    rw [heq]
    simp [hname]

/-- The validation of format_root_device accepts exactly the bare roots. -/
theorem validation_iff (root : String) (hc : IsCString root) :
    ¬ (charAt (skipToColon root.data) 0 ≠ ':' ∨ charAt (skipToColon root.data) 1 ≠ NUL) ↔
      IsBareRoot root := by
  rw [not_or, not_not, not_not, isBareRoot_iff]
  exact charAt_skipToColon_iff root.data hc

/-- A string is not a bare root exactly when it has no colon at all or has at
least one character after its first colon. -/
theorem not_bareRoot_iff (root : String) :
    ¬ IsBareRoot root ↔
      (':' ∉ root.data ∨
        ∃ name c rest, ':' ∉ name ∧ root.data = name ++ ':' :: c :: rest) := by
  rw [isBareRoot_iff]
  constructor
  · intro h
    by_cases hcolon : ':' ∈ root.data
    · right
      obtain ⟨name, post, heq, hname⟩ := List.eq_append_cons_of_mem hcolon
      cases post with
      | nil => exact absurd ⟨name, hname, heq⟩ h
      | cons c rest => exact ⟨name, c, rest, hname, heq⟩
    · left
      exact hcolon
  · rintro (h | ⟨name, c, rest, hname, heq⟩) ⟨name2, hname2, heq2⟩
    · exact h (by simp [heq2])
    · rw [heq] at heq2
      rcases List.append_eq_append_iff.mp heq2 with ⟨a, h1, h2⟩ | ⟨a, h1, h2⟩
      · cases a with
        | nil => simp at h2
        | cons x t =>
          simp at h2
          obtain ⟨rfl, h3⟩ := h2
          exact hname2 (by simp [h1])
      · cases a with
        | nil => simp at h2
        | cons x t => simp at h2

/-! ## The steps of a format -/

section Steps

variable {σ : Type}

/-- The world after the root-table lookup of a function. -/
theorem get_root_info_for_path_eq (E : Collab σ) (root : String) (w : World σ) :
    Ext.get_root_info_for_path E root w =
      (E.get_root_info_for_path root,
       ⟨w.ext, w.trace ++ [.get_root_info_for_path root (E.get_root_info_for_path root)],
        w.log⟩) := rfl

/-- The unmount step when the mount point is mounted: lookup, scan, find and
one unmount, whose result is returned. -/
theorem ensure_mounted (E : Collab σ) (root : String) (w : World σ) (info : RootInfo)
    (mp : String) (v : MountedVolume) (hinfo : E.get_root_info_for_path root = some info)
    (hmp : info.mount_point = some mp) (hv : (probe_mount E mp w.ext).1 = some v) :
    ensure_root_path_unmounted E root w =
      ((E.unmount_mounted_volume v (probe_mount E mp w.ext).2).1,
       ⟨(E.unmount_mounted_volume v (probe_mount E mp w.ext).2).2,
        w.trace ++ [.get_root_info_for_path root (some info),
                    .scan_mounted_volumes (E.scan_mounted_volumes w.ext).1,
                    .find_mounted_volume_by_mount_point mp (some v),
                    .unmount_mounted_volume v
                      (E.unmount_mounted_volume v (probe_mount E mp w.ext).2).1],
        w.log⟩) := by
  unfold probe_mount at hv ⊢
  unfold ensure_root_path_unmounted
  simp only [Ext.get_root_info_for_path, Ext.scan_mounted_volumes,
    Ext.find_mounted_volume_by_mount_point, Ext.unmount_mounted_volume, hinfo, hmp]
  by_cases hs : (E.scan_mounted_volumes w.ext).1 < 0
  · simp [hs] at hv
  · simp only [hs, if_false] at hv ⊢
    simp [hv]

/-- The unmount step when the mount point is not mounted (or the scan fails):
no unmount call, and no flash call. -/
theorem ensure_not_mounted (E : Collab σ) (root : String) (w : World σ) (info : RootInfo)
    (mp : String) (hinfo : E.get_root_info_for_path root = some info)
    (hmp : info.mount_point = some mp) (hv : (probe_mount E mp w.ext).1 = none) :
    ∃ evs, (ensure_root_path_unmounted E root w).2.trace = w.trace ++ evs ∧
      ∀ e ∈ evs, e.isUnmount = false ∧ e.isFlash = false := by
  unfold probe_mount at hv
  unfold ensure_root_path_unmounted
  simp only [Ext.get_root_info_for_path, Ext.scan_mounted_volumes,
    Ext.find_mounted_volume_by_mount_point, Ext.unmount_mounted_volume, hinfo, hmp]
  by_cases hs : (E.scan_mounted_volumes w.ext).1 < 0
  · simp only [hs, if_true]
    exact ⟨[.get_root_info_for_path root (some info),
            .scan_mounted_volumes (E.scan_mounted_volumes w.ext).1],
      by simp, by simp [Event.isUnmount, Event.isFlash]⟩
  · simp only [hs, if_false] at hv ⊢
    simp only [hv]
    exact ⟨[.get_root_info_for_path root (some info),
            .scan_mounted_volumes (E.scan_mounted_volumes w.ext).1,
            .find_mounted_volume_by_mount_point mp none],
      by simp, by simp [Event.isUnmount, Event.isFlash]⟩

/-- The unmount step makes no flash call and writes no diagnostic; when the
root is known and the step fails, one of its calls failed. -/
theorem ensure_trace (E : Collab σ) (root : String) (w : World σ) :
    ∃ evs, (ensure_root_path_unmounted E root w).2.trace = w.trace ++ evs ∧
      (ensure_root_path_unmounted E root w).2.log = w.log ∧
      (∀ e ∈ evs, e.isFlash = false) ∧
      (E.get_root_info_for_path root ≠ none → (ensure_root_path_unmounted E root w).1 < 0 →
        ∃ e ∈ evs, e.failed = true) := by
  unfold ensure_root_path_unmounted
  simp only [Ext.get_root_info_for_path, Ext.scan_mounted_volumes,
    Ext.find_mounted_volume_by_mount_point, Ext.unmount_mounted_volume]
  cases hinfo : E.get_root_info_for_path root with
  | none =>
    exact ⟨[.get_root_info_for_path root none], by simp, by simp, by simp [Event.isFlash],
      fun h => absurd rfl h⟩
  | some info =>
    dsimp only
    cases hmp : info.mount_point with
    | none =>
      exact ⟨[.get_root_info_for_path root (some info)], by simp, by simp, by simp [Event.isFlash],
        fun _ h => by simp at h⟩
    | some mp =>
      dsimp only
      by_cases hs : (E.scan_mounted_volumes w.ext).1 < 0
      · simp only [hs, if_true]
        exact ⟨[.get_root_info_for_path root (some info),
                .scan_mounted_volumes (E.scan_mounted_volumes w.ext).1],
          by simp, by simp, by simp [Event.isFlash],
          fun _ _ => ⟨_, List.mem_cons_of_mem _ (List.mem_singleton_self _),
            by simp [Event.failed, hs]⟩⟩
      · simp only [hs, if_false]
        cases hf : (E.find_mounted_volume_by_mount_point mp (E.scan_mounted_volumes w.ext).2).1 with
        | none =>
          dsimp only
          exact ⟨[.get_root_info_for_path root (some info),
                  .scan_mounted_volumes (E.scan_mounted_volumes w.ext).1,
                  .find_mounted_volume_by_mount_point mp none],
            by simp, by simp, by simp [Event.isFlash], fun _ h => by simp at h⟩
        | some v =>
          dsimp only
          refine ⟨[.get_root_info_for_path root (some info),
                  .scan_mounted_volumes (E.scan_mounted_volumes w.ext).1,
                  .find_mounted_volume_by_mount_point mp (some v),
                  .unmount_mounted_volume v (E.unmount_mounted_volume v
                    (E.find_mounted_volume_by_mount_point mp (E.scan_mounted_volumes w.ext).2).2).1],
            by simp, by simp, by simp [Event.isFlash], fun _ h => ?_⟩
          exact ⟨.unmount_mounted_volume v (E.unmount_mounted_volume v
              (E.find_mounted_volume_by_mount_point mp (E.scan_mounted_volumes w.ext).2).2).1,
            by simp, by simpa [Event.failed] using h⟩

/-- A device that is not the flash device falls through to the last two lines. -/
theorem format_device_non_mtd (E : Collab σ) (root : String) (info : RootInfo) (d : Device)
    (w : World σ) (hd : d ≠ Device.g_mtd_device) :
    format_device E root info d w = non_mtd_failure root w := by
  unfold format_device
  simp [hd]

/-- The flash block when the partition is not found. -/
theorem format_device_not_found (E : Collab σ) (root : String) (info : RootInfo) (w : World σ)
    (h : (E.mtd_find_partition_by_name info.partition_name
            (E.mtd_scan_partitions w.ext).2).1 = none) :
    format_device E root info Device.g_mtd_device w =
      (-1, ⟨(E.mtd_find_partition_by_name info.partition_name (E.mtd_scan_partitions w.ext).2).2,
            w.trace ++ [.mtd_scan_partitions (E.mtd_scan_partitions w.ext).1,
                        .mtd_find_partition_by_name info.partition_name none],
            w.log ++ [msg_cant_find info.partition_name]⟩) := by
  unfold format_device
  simp only [Ext.mtd_scan_partitions, Ext.mtd_find_partition_by_name, LOGW, if_true, h]
  simp

/-- The flash block on the flash device: its runs are the six flash outcomes. -/
theorem format_device_mtd (E : Collab σ) (root : String) (info : RootInfo) (w : World σ) :
    ∃ evs msgs,
      (format_device E root info Device.g_mtd_device w).2.trace = w.trace ++ evs ∧
      (format_device E root info Device.g_mtd_device w).2.log = w.log ++ msgs ∧
      FlashOutcome root info (format_device E root info Device.g_mtd_device w).1 evs msgs := by
  unfold format_device non_mtd_failure
  simp only [Ext.mtd_scan_partitions, Ext.mtd_find_partition_by_name, Ext.mtd_write_partition,
    Ext.mtd_erase_blocks, Ext.mtd_write_close, LOGW, if_true]
  cases hf : (E.mtd_find_partition_by_name info.partition_name
      (E.mtd_scan_partitions w.ext).2).1 with
  | none =>
    dsimp only
    refine ⟨_, _, ?_, ?_, FlashOutcome.not_found (E.mtd_scan_partitions w.ext).1⟩ <;> simp
  | some p =>
    dsimp only
    by_cases hfs : info.filesystem = Filesystem.g_raw ∨
        info.filesystem = Filesystem.named "yaffs2"
    · simp only [hfs, if_true]
      cases ho : (E.mtd_write_partition p (E.mtd_find_partition_by_name info.partition_name
          (E.mtd_scan_partitions w.ext).2).2).1 with
      | none =>
        dsimp only
        refine ⟨_, _, ?_, ?_,
          FlashOutcome.open_failed (E.mtd_scan_partitions w.ext).1 p hfs⟩ <;> simp
      | some c =>
        dsimp only
        split
        · rename_i he
          refine ⟨_, _, ?_, ?_, FlashOutcome.erase_failed (E.mtd_scan_partitions w.ext).1 p c
            (E.mtd_write_close c (E.mtd_erase_blocks c (-1) (E.mtd_write_partition p
              (E.mtd_find_partition_by_name info.partition_name
                (E.mtd_scan_partitions w.ext).2).2).2).2).1 hfs⟩ <;> simp [he]
        · rename_i he
          split
          · rename_i hcl
            refine ⟨_, _, ?_, ?_, FlashOutcome.close_failed (E.mtd_scan_partitions w.ext).1 p c
              (E.mtd_erase_blocks c (-1) (E.mtd_write_partition p
                (E.mtd_find_partition_by_name info.partition_name
                  (E.mtd_scan_partitions w.ext).2).2).2).1
              (E.mtd_write_close c (E.mtd_erase_blocks c (-1) (E.mtd_write_partition p
                (E.mtd_find_partition_by_name info.partition_name
                  (E.mtd_scan_partitions w.ext).2).2).2).2).1 hfs he hcl⟩ <;> simp
          · rename_i hcl
            rw [not_not] at hcl
            refine ⟨_, _, ?_, ?_, FlashOutcome.formatted (E.mtd_scan_partitions w.ext).1 p c
              (E.mtd_erase_blocks c (-1) (E.mtd_write_partition p
                (E.mtd_find_partition_by_name info.partition_name
                  (E.mtd_scan_partitions w.ext).2).2).2).1 hfs he⟩ <;> simp [hcl]
    · simp only [hfs, if_false]
      refine ⟨_, _, ?_, ?_,
        FlashOutcome.unsupported (E.mtd_scan_partitions w.ext).1 p hfs⟩ <;> simp

/-- The unmount step when a fresh scan succeeds and does not find the mount
point: lookup, scan and find, and 0 is returned. -/
theorem ensure_absent (E : Collab σ) (root : String) (w : World σ) (info : RootInfo)
    (mp : String) (hinfo : E.get_root_info_for_path root = some info)
    (hmp : info.mount_point = some mp) (hs : ¬ (E.scan_mounted_volumes w.ext).1 < 0)
    (hv : (probe_mount E mp w.ext).1 = none) :
    ensure_root_path_unmounted E root w =
      (0, ⟨(probe_mount E mp w.ext).2,
           w.trace ++ [.get_root_info_for_path root (some info),
                       .scan_mounted_volumes (E.scan_mounted_volumes w.ext).1,
                       .find_mounted_volume_by_mount_point mp none],
           w.log⟩) := by
  unfold probe_mount at hv ⊢
  unfold ensure_root_path_unmounted
  simp only [Ext.get_root_info_for_path, Ext.scan_mounted_volumes,
    Ext.find_mounted_volume_by_mount_point, Ext.unmount_mounted_volume, hinfo, hmp]
  simp only [hs, if_false] at hv ⊢
  simp [hv]

/-- The flash block when the partition is found, opened, erased and closed:
the five flash calls with the results of the collaborator, the state the close
leaves, and 0. -/
theorem format_device_formatted (E : Collab σ) (root : String) (info : RootInfo) (w : World σ)
    (p : MtdPartition) (c : MtdWriteContext)
    (hfs : info.filesystem = Filesystem.g_raw ∨ info.filesystem = Filesystem.named "yaffs2")
    (hfind : (flash_found E info.partition_name w.ext).1 = some p)
    (hopen : (flash_opened E info.partition_name p w.ext).1 = some c)
    (herase : (flash_erased E info.partition_name p c w.ext).1 ≠ -1)
    (hclose : (flash_closed E info.partition_name p c w.ext).1 = 0) :
    format_device E root info Device.g_mtd_device w =
      (0, ⟨(flash_closed E info.partition_name p c w.ext).2,
           w.trace ++ [.mtd_scan_partitions (E.mtd_scan_partitions w.ext).1,
                       .mtd_find_partition_by_name info.partition_name (some p),
                       .mtd_write_partition p (some c),
                       .mtd_erase_blocks c (-1) (flash_erased E info.partition_name p c w.ext).1,
                       .mtd_write_close c 0],
           w.log⟩) := by
  unfold flash_closed at hclose ⊢
  unfold flash_erased at herase hclose ⊢
  unfold flash_opened at hopen herase hclose ⊢
  unfold flash_found at hfind hopen herase hclose ⊢
  unfold format_device
  simp only [Ext.mtd_scan_partitions, Ext.mtd_find_partition_by_name, Ext.mtd_write_partition,
    Ext.mtd_erase_blocks, Ext.mtd_write_close, LOGW, if_true, hfind, hfs, hopen]
  simp [herase, hclose]

/-- Every call of a flash outcome is a flash call. -/
theorem FlashOutcome.all_flash {root : String} {info : RootInfo} {code : Int}
    {evs : List Event} {msgs : List String} (h : FlashOutcome root info code evs msgs) :
    ∀ e ∈ evs, e.isFlash = true := by
  cases h <;> simp [Event.isFlash]

/-- A bare root whose descriptor has a device passes validation and
resolution: what remains is the unmount step and the flash block. -/
theorem format_root_device_resolved (E : Collab σ) (root : String) (w : World σ)
    (info : RootInfo) (d : Device) (hc : IsCString root) (hb : IsBareRoot root)
    (hinfo : E.get_root_info_for_path root = some info) (hdev : info.device = some d) :
    format_root_device E root w =
      match info.mount_point with
      | none => format_device E root info d (Ext.get_root_info_for_path E root w).2
      | some _ =>
        if (ensure_root_path_unmounted E root (Ext.get_root_info_for_path E root w).2).1 < 0 then
          ((ensure_root_path_unmounted E root (Ext.get_root_info_for_path E root w).2).1,
           LOGW (ensure_root_path_unmounted E root (Ext.get_root_info_for_path E root w).2).2
             (msg_cant_unmount root))
        else
          format_device E root info d
            (ensure_root_path_unmounted E root (Ext.get_root_info_for_path E root w).2).2 := by
  have hv := (validation_iff root hc).mpr hb
  unfold format_root_device
  simp only [if_neg hv, get_root_info_for_path_eq, hinfo, hdev]

/-- The shape of every run of format_root_device: calls that are not flash
calls, followed either by no flash call at all and a negative status, or by the
calls of one flash outcome, whose status is returned. -/
theorem format_root_device_shape (E : Collab σ) (root : String) (s : σ) :
    ∃ pre fl,
      (format_root_device E root (World.init s)).2.trace = pre ++ fl ∧
      (∀ e ∈ pre, e.isFlash = false) ∧
      ((fl = [] ∧ (format_root_device E root (World.init s)).1 < 0) ∨
        ∃ info msgs, FlashOutcome root info (format_root_device E root (World.init s)).1 fl msgs) := by
  have hdevice : ∀ (info : RootInfo) (d : Device) (w : World σ),
      (∀ e ∈ w.trace, e.isFlash = false) →
      ∃ pre fl, (format_device E root info d w).2.trace = pre ++ fl ∧
        (∀ e ∈ pre, e.isFlash = false) ∧
        ((fl = [] ∧ (format_device E root info d w).1 < 0) ∨
          ∃ info2 msgs, FlashOutcome root info2 (format_device E root info d w).1 fl msgs) := by
    intro info d w hw
    by_cases hd : d = Device.g_mtd_device
    · subst hd
      obtain ⟨evs, msgs, h1, -, h3⟩ := format_device_mtd E root info w
      exact ⟨w.trace, evs, h1, hw, Or.inr ⟨info, msgs, h3⟩⟩
    · rw [format_device_non_mtd E root info d w hd]
      exact ⟨w.trace, [], by simp [non_mtd_failure, LOGW], hw,
        Or.inl ⟨rfl, by simp [non_mtd_failure]⟩⟩
  unfold format_root_device
  by_cases hv : charAt (skipToColon root.data) 0 ≠ ':' ∨ charAt (skipToColon root.data) 1 ≠ NUL
  · simp only [if_pos hv]
    exact ⟨[], [], by simp [LOGW, World.init], by simp, Or.inl ⟨rfl, by simp⟩⟩
  · simp only [if_neg hv, get_root_info_for_path_eq]
    cases hinfo : E.get_root_info_for_path root with
    | none =>
      exact ⟨[.get_root_info_for_path root none], [], by simp [LOGW, World.init],
        by simp [Event.isFlash], Or.inl ⟨rfl, by simp⟩⟩
    | some info =>
      dsimp only
      cases hdev : info.device with
      | none =>
        exact ⟨[.get_root_info_for_path root (some info)], [], by simp [LOGW, World.init],
          by simp [Event.isFlash], Or.inl ⟨rfl, by simp⟩⟩
      | some d =>
        dsimp only
        cases hmp : info.mount_point with
        | none =>
          dsimp only
          apply hdevice
          simp [World.init, Event.isFlash]
        | some mp =>
          dsimp only
          obtain ⟨evs, h1, -, h3, -⟩ := ensure_trace E root
            (⟨(World.init s).ext,
              (World.init s).trace ++ [.get_root_info_for_path root (some info)],
              (World.init s).log⟩ : World σ)
          split
          · rename_i hneg
            refine ⟨[.get_root_info_for_path root (some info)] ++ evs, [], ?_, ?_,
              Or.inl ⟨rfl, hneg⟩⟩
            · simp only [LOGW, List.append_nil]
              rw [h1]
              simp [World.init]
            · intro e he
              simp only [List.singleton_append, List.mem_cons] at he
              rcases he with rfl | he
              · rfl
              · exact h3 e he
          · apply hdevice
            rw [h1]
            intro e he
            simp only [World.init, List.nil_append, List.mem_append, List.mem_singleton] at he
            rcases he with rfl | he
            · rfl
            · exact h3 e he

/-- The flash block only adds flash calls to the trace. -/
theorem format_device_trace (E : Collab σ) (root : String) (info : RootInfo) (d : Device)
    (w : World σ) :
    ∃ fl, (format_device E root info d w).2.trace = w.trace ++ fl ∧
      ∀ e ∈ fl, e.isFlash = true := by
  by_cases hd : d = Device.g_mtd_device
  · subst hd
    obtain ⟨evs, msgs, h1, -, h3⟩ := format_device_mtd E root info w
    exact ⟨evs, h1, h3.all_flash⟩
  · rw [format_device_non_mtd E root info d w hd]
    exact ⟨[], by simp [non_mtd_failure, LOGW], by simp⟩

/-- A flash call is not an unmount call. -/
theorem Event.not_isUnmount_of_isFlash {e : Event} (h : e.isFlash = true) :
    e.isUnmount = false := by
  cases e <;> simp_all [Event.isFlash, Event.isUnmount]

/-- A bare root whose descriptor has a device and a mounted mount point: the
calls up to the unmount, then either the unmount failure or the flash block. -/
theorem format_root_device_mounted (E : Collab σ) (s : σ) (root : String) (info : RootInfo)
    (d : Device) (mp : String) (v : MountedVolume) (hc : IsCString root) (hb : IsBareRoot root)
    (hinfo : E.get_root_info_for_path root = some info) (hdev : info.device = some d)
    (hmp : info.mount_point = some mp) (hv : (probe_mount E mp s).1 = some v) :
    format_root_device E root (World.init s) =
      if (E.unmount_mounted_volume v (probe_mount E mp s).2).1 < 0 then
        ((E.unmount_mounted_volume v (probe_mount E mp s).2).1,
         ⟨(E.unmount_mounted_volume v (probe_mount E mp s).2).2,
          [.get_root_info_for_path root (some info), .get_root_info_for_path root (some info),
           .scan_mounted_volumes (E.scan_mounted_volumes s).1,
           .find_mounted_volume_by_mount_point mp (some v),
           .unmount_mounted_volume v (E.unmount_mounted_volume v (probe_mount E mp s).2).1],
          [msg_cant_unmount root]⟩)
      else
        format_device E root info d
          ⟨(E.unmount_mounted_volume v (probe_mount E mp s).2).2,
           [.get_root_info_for_path root (some info), .get_root_info_for_path root (some info),
            .scan_mounted_volumes (E.scan_mounted_volumes s).1,
            .find_mounted_volume_by_mount_point mp (some v),
            .unmount_mounted_volume v (E.unmount_mounted_volume v (probe_mount E mp s).2).1],
           []⟩ := by
  rw [format_root_device_resolved E root (World.init s) info d hc hb hinfo hdev]
  simp only [hmp, get_root_info_for_path_eq, hinfo]
  rw [ensure_mounted E root _ info mp v hinfo hmp (by simpa [World.init] using hv)]
  simp [World.init, LOGW]

/-- In a list that starts with calls that are not flash calls, every flash call
comes after each of them. -/
theorem mem_before_flash {A B pre post : List Event} {e u : Event}
    (h : A ++ B = pre ++ e :: post) (hA : ∀ x ∈ A, x.isFlash = false)
    (he : e.isFlash = true) (hu : u ∈ A) : u ∈ pre := by
  rcases List.append_eq_append_iff.mp h with ⟨a, h1, -⟩ | ⟨c, h1, h2⟩
  · rw [h1]
    exact List.mem_append_left _ hu
  · cases c with
    | nil =>
      rw [List.append_nil] at h1
      rw [← h1]
      exact hu
    | cons x t =>
      simp only [List.cons_append, List.cons.injEq] at h2
      have hx : x ∈ A := by rw [h1]; simp
      have := hA x hx
      rw [← h2.1, he] at this
      exact absurd this (by simp)

/-- In a list that starts with calls that are neither erase nor close calls,
every erase or close call lies in the rest of the list. -/
theorem split_at_erase_or_close {X Y pre post : List Event} {e : Event}
    (hX : ∀ x ∈ X, x.isErase = false ∧ x.isClose = false)
    (h : X ++ Y = pre ++ e :: post) (he : e.isErase = true ∨ e.isClose = true) :
    ∃ a, pre = X ++ a ∧ Y = a ++ e :: post := by
  rcases List.append_eq_append_iff.mp h with ⟨a, ha, hb⟩ | ⟨c, hc, hd⟩
  · exact ⟨a, ha, hb⟩
  · cases c with
    | nil => exact ⟨[], by simpa using hc.symm, by simpa using hd.symm⟩
    | cons x t =>
      exfalso
      simp only [List.cons_append, List.cons.injEq] at hd
      have hx := hX x (by rw [hc]; simp)
      rw [← hd.1] at hx
      rcases he with he | he
      · rw [he] at hx
        exact absurd hx.1 (by simp)
      · rw [he] at hx
        exact absurd hx.2 (by simp)

/-- A call that is not a flash call is no open, erase or close call. -/
theorem Event.not_session_of_not_isFlash {e : Event} (h : e.isFlash = false) :
    e.isOpen = false ∧ e.isErase = false ∧ e.isClose = false := by
  cases e <;> simp_all [Event.isFlash, Event.isOpen, Event.isErase, Event.isClose]

end Steps

/-! ## Claims -/

section Claims

variable {σ : Type}

/-- C1: for every root string (a C string) that is not a run of non-colon
characters followed by exactly one colon at the end of the string,
format_root_device returns -1 and makes no collaborator call: the call trace is
empty and the collaborator state is the one the call started in. -/
theorem format_root_device_rejects_malformed_root (E : Collab σ) (s : σ) (root : String)
    (hc : IsCString root) (hbad : ¬ IsBareRoot root) :
    (format_root_device E root (World.init s)).1 = -1 ∧
      (format_root_device E root (World.init s)).2.trace = [] ∧
      (format_root_device E root (World.init s)).2.ext = s := by
  have hv := (validation_iff root hc).not.mpr hbad
  rw [not_not] at hv
  unfold format_root_device
  simp only [if_pos hv]
  simp [LOGW, World.init]

theorem format_root_device_rejects_malformed_root_witness :
    IsCString "SYSTEM:lib" ∧ ¬ IsBareRoot "SYSTEM:lib" ∧
      (format_root_device sampleCollab "SYSTEM:lib" (World.init sampleState)).1 = -1 ∧
      (format_root_device sampleCollab "SYSTEM:lib" (World.init sampleState)).2.trace = [] ∧
      (format_root_device sampleCollab "SYSTEM:lib" (World.init sampleState)).2.ext
        = sampleState :=
  ⟨by decide, by decide,
    format_root_device_rejects_malformed_root sampleCollab sampleState "SYSTEM:lib"
      (by decide) (by decide)⟩

/-- C7: for every root whose name is not in the root table
(get_root_info_for_path returns NULL), and for every root whose descriptor has
no device handle, format_root_device returns -1, and its call trace contains no
mount-table call (scan, find, unmount) and no flash call (scan, find, open,
erase, close); the collaborator state is left as it was. -/
theorem format_root_device_unresolved (E : Collab σ) (s : σ) (root : String)
    (h : E.get_root_info_for_path root = none ∨
      ∃ info, E.get_root_info_for_path root = some info ∧ info.device = none) :
    (format_root_device E root (World.init s)).1 = -1 ∧
      (∀ e ∈ (format_root_device E root (World.init s)).2.trace,
        e.isMount = false ∧ e.isFlash = false) ∧
      (format_root_device E root (World.init s)).2.ext = s := by
  unfold format_root_device
  by_cases hv : charAt (skipToColon root.data) 0 ≠ ':' ∨ charAt (skipToColon root.data) 1 ≠ NUL
  · simp only [if_pos hv]
    simp [LOGW, World.init]
  · simp only [if_neg hv, get_root_info_for_path_eq]
    rcases h with h | ⟨info, h, hdev⟩
    · simp [h, LOGW, World.init, Event.isMount, Event.isFlash]
    · simp [h, hdev, LOGW, World.init, Event.isMount, Event.isFlash]

theorem format_root_device_unresolved_witness :
    (sampleCollab.get_root_info_for_path "RADIO:" = none ∧
      (format_root_device sampleCollab "RADIO:" (World.init sampleState)).1 = -1 ∧
      (∀ e ∈ (format_root_device sampleCollab "RADIO:" (World.init sampleState)).2.trace,
        e.isMount = false ∧ e.isFlash = false) ∧
      (format_root_device sampleCollab "RADIO:" (World.init sampleState)).2.ext
        = sampleState) ∧
    ((∃ info, sampleCollab.get_root_info_for_path "TMP:" = some info ∧ info.device = none) ∧
      (format_root_device sampleCollab "TMP:" (World.init sampleState)).1 = -1 ∧
      (∀ e ∈ (format_root_device sampleCollab "TMP:" (World.init sampleState)).2.trace,
        e.isMount = false ∧ e.isFlash = false) ∧
      (format_root_device sampleCollab "TMP:" (World.init sampleState)).2.ext
        = sampleState) :=
  ⟨⟨by decide,
      format_root_device_unresolved sampleCollab sampleState "RADIO:" (Or.inl (by decide))⟩,
    ⟨⟨_, rfl, rfl⟩,
      format_root_device_unresolved sampleCollab sampleState "TMP:"
        (Or.inr ⟨_, rfl, rfl⟩)⟩⟩

/-- C2: for every bare root whose descriptor has a device and a mount point
that a fresh look at the mount table finds mounted: if the unmount call made
through ensure_root_path_unmounted fails (returns a negative status),
format_root_device returns that negative status and its call trace contains no
flash call: no partition-table scan, no partition find, no open-for-write, no
erase (and no close). -/
theorem unmount_failure_short_circuits (E : Collab σ) (s : σ) (root : String)
    (info : RootInfo) (d : Device) (mp : String) (v : MountedVolume)
    (hc : IsCString root) (hb : IsBareRoot root)
    (hinfo : E.get_root_info_for_path root = some info) (hdev : info.device = some d)
    (hmp : info.mount_point = some mp) (hmounted : (probe_mount E mp s).1 = some v)
    (hfail : (E.unmount_mounted_volume v (probe_mount E mp s).2).1 < 0) :
    (format_root_device E root (World.init s)).1 =
        (E.unmount_mounted_volume v (probe_mount E mp s).2).1 ∧
      (format_root_device E root (World.init s)).1 < 0 ∧
      ∀ e ∈ (format_root_device E root (World.init s)).2.trace, e.isFlash = false := by
  rw [format_root_device_mounted E s root info d mp v hc hb hinfo hdev hmp hmounted]
  simp only [if_pos hfail]
  exact ⟨trivial, hfail, by simp [Event.isFlash]⟩

theorem unmount_failure_short_circuits_witness :
    IsCString "DATA:" ∧ IsBareRoot "DATA:" ∧
      (probe_mount sampleCollab "/data" sampleState).1
        = some ⟨"/dev/block/mtdblock5", "/data", "ext3"⟩ ∧
      (format_root_device sampleCollab "DATA:" (World.init sampleState)).1 = -1 ∧
      ∀ e ∈ (format_root_device sampleCollab "DATA:" (World.init sampleState)).2.trace,
        e.isFlash = false :=
  have h := unmount_failure_short_circuits sampleCollab sampleState "DATA:"
    ⟨"DATA:", some Device.g_mtd_device, some "userdata", some "/data", Filesystem.named "ext3"⟩
    Device.g_mtd_device "/data" ⟨"/dev/block/mtdblock5", "/data", "ext3"⟩
    (by decide) (by decide) (by decide) rfl rfl (by decide) (by decide)
  ⟨by decide, by decide, by decide, h.1.trans (by decide), h.2.2⟩

/-- C3: for every bare root whose descriptor has a device: if the descriptor
has a mount point and a fresh look at the mount table finds it mounted, the call
trace of format_root_device contains exactly one unmount call (of the volume
found) and that call precedes every flash call (scan, find, open, erase,
close); if the mount point is not found, or the descriptor has no mount point,
the trace contains no unmount call. -/
theorem unmount_once_before_flash (E : Collab σ) (s : σ) (root : String) (info : RootInfo)
    (d : Device) (hc : IsCString root) (hb : IsBareRoot root)
    (hinfo : E.get_root_info_for_path root = some info) (hdev : info.device = some d) :
    (∀ mp v, info.mount_point = some mp → (probe_mount E mp s).1 = some v →
      (format_root_device E root (World.init s)).2.trace.filter Event.isUnmount =
          [.unmount_mounted_volume v (E.unmount_mounted_volume v (probe_mount E mp s).2).1] ∧
        ∀ pre e post, (format_root_device E root (World.init s)).2.trace = pre ++ e :: post →
          e.isFlash = true → ∃ u ∈ pre, u.isUnmount = true) ∧
    (∀ mp, info.mount_point = some mp → (probe_mount E mp s).1 = none →
      (format_root_device E root (World.init s)).2.trace.filter Event.isUnmount = []) ∧
    (info.mount_point = none →
      (format_root_device E root (World.init s)).2.trace.filter Event.isUnmount = []) := by
  refine ⟨?_, ?_, ?_⟩
  · intro mp v hmp hmounted
    rw [format_root_device_mounted E s root info d mp v hc hb hinfo hdev hmp hmounted]
    have hA : ∀ x ∈ [Event.get_root_info_for_path root (some info),
        .get_root_info_for_path root (some info),
        .scan_mounted_volumes (E.scan_mounted_volumes s).1,
        .find_mounted_volume_by_mount_point mp (some v),
        .unmount_mounted_volume v (E.unmount_mounted_volume v (probe_mount E mp s).2).1],
        x.isFlash = false := by simp [Event.isFlash]
    split
    · refine ⟨by simp [Event.isUnmount], ?_⟩
      intro pre e post h he
      have hmem : e ∈ pre ++ e :: post := by simp
      rw [← h] at hmem
      exact absurd he (by rw [hA e hmem]; simp)
    · obtain ⟨fl, h1, h2⟩ := format_device_trace E root info d
        ⟨(E.unmount_mounted_volume v (probe_mount E mp s).2).2,
         [.get_root_info_for_path root (some info), .get_root_info_for_path root (some info),
          .scan_mounted_volumes (E.scan_mounted_volumes s).1,
          .find_mounted_volume_by_mount_point mp (some v),
          .unmount_mounted_volume v (E.unmount_mounted_volume v (probe_mount E mp s).2).1],
         []⟩
      rw [h1]
      refine ⟨?_, ?_⟩
      · rw [List.filter_append]
        have : fl.filter Event.isUnmount = [] := by
          rw [List.filter_eq_nil_iff]
          intro e he
          simp [Event.not_isUnmount_of_isFlash (h2 e he)]
        rw [this]
        simp [Event.isUnmount]
      · intro pre e post h he
        exact ⟨.unmount_mounted_volume v
          (E.unmount_mounted_volume v (probe_mount E mp s).2).1,
          mem_before_flash h hA he (by simp), rfl⟩
  · intro mp hmp hnot
    rw [format_root_device_resolved E root (World.init s) info d hc hb hinfo hdev]
    simp only [hmp, get_root_info_for_path_eq, hinfo]
    obtain ⟨evs, h1, h2⟩ := ensure_not_mounted E root
      (⟨(World.init s).ext, (World.init s).trace ++ [.get_root_info_for_path root (some info)],
        (World.init s).log⟩ : World σ) info mp hinfo hmp (by simpa [World.init] using hnot)
    have hevs : evs.filter Event.isUnmount = [] := by
      rw [List.filter_eq_nil_iff]
      intro e he
      simp [(h2 e he).1]
    split
    · simp only [LOGW]
      rw [h1]
      simp [World.init, List.filter_append, hevs, Event.isUnmount]
    · obtain ⟨fl, h3, h4⟩ := format_device_trace E root info d
        (ensure_root_path_unmounted E root
          (⟨(World.init s).ext,
            (World.init s).trace ++ [.get_root_info_for_path root (some info)],
            (World.init s).log⟩ : World σ)).2
      have hfl : fl.filter Event.isUnmount = [] := by
        rw [List.filter_eq_nil_iff]
        intro e he
        simp [Event.not_isUnmount_of_isFlash (h4 e he)]
      rw [h3, h1]
      simp [World.init, List.filter_append, hevs, hfl, Event.isUnmount]
  · intro hmp
    rw [format_root_device_resolved E root (World.init s) info d hc hb hinfo hdev]
    simp only [hmp, get_root_info_for_path_eq, hinfo]
    obtain ⟨fl, h3, h4⟩ := format_device_trace E root info d
      (⟨(World.init s).ext, (World.init s).trace ++ [.get_root_info_for_path root (some info)],
        (World.init s).log⟩ : World σ)
    have hfl : fl.filter Event.isUnmount = [] := by
      rw [List.filter_eq_nil_iff]
      intro e he
      simp [Event.not_isUnmount_of_isFlash (h4 e he)]
    rw [h3]
    simp [World.init, List.filter_append, hfl, Event.isUnmount]

theorem unmount_once_before_flash_witness :
    IsCString "SYSTEM:" ∧ IsBareRoot "SYSTEM:" ∧
      (probe_mount sampleCollab "/system" sampleState).1
        = some ⟨"/dev/block/mtdblock3", "/system", "yaffs2"⟩ ∧
      (format_root_device sampleCollab "SYSTEM:" (World.init sampleState)).2.trace.filter
          Event.isUnmount
        = [.unmount_mounted_volume ⟨"/dev/block/mtdblock3", "/system", "yaffs2"⟩ 0] ∧
      ∀ pre e post,
        (format_root_device sampleCollab "SYSTEM:" (World.init sampleState)).2.trace
            = pre ++ e :: post →
          e.isFlash = true → ∃ u ∈ pre, u.isUnmount = true :=
  have h := (unmount_once_before_flash sampleCollab sampleState "SYSTEM:"
    ⟨"SYSTEM:", some Device.g_mtd_device, some "system", some "/system",
      Filesystem.named "yaffs2"⟩
    Device.g_mtd_device (by decide) (by decide) (by decide) rfl).1
    "/system" ⟨"/dev/block/mtdblock3", "/system", "yaffs2"⟩ rfl (by decide)
  ⟨by decide, by decide, by decide, h.1.trans (by decide), h.2⟩

/-- C10: format_root_device is not atomic on failure.  For every bare root
whose descriptor has a device that is not the flash device (or a filesystem
that is neither the raw sentinel nor yaffs2, or a partition name the flash scan
does not find) and a mount point that a fresh look at the mount table finds
mounted: when the unmount succeeds (returns 0), the function has issued that
successful unmount, then makes no open-for-write and no erase call and returns
-1; for a device that is not the flash device the unmount is the last call and
the collaborators are left in the state the unmount produced.  The unmount
comes before the device type, the filesystem and the partition are looked
at. -/
theorem unmount_then_failure (E : Collab σ) (s : σ) (root : String)
    (info : RootInfo) (d : Device) (mp : String) (v : MountedVolume)
    (hc : IsCString root) (hb : IsBareRoot root)
    (hinfo : E.get_root_info_for_path root = some info) (hdev : info.device = some d)
    (hmp : info.mount_point = some mp) (hmounted : (probe_mount E mp s).1 = some v)
    (hun : (E.unmount_mounted_volume v (probe_mount E mp s).2).1 = 0)
    (hcannot : d ≠ Device.g_mtd_device ∨
      ¬ (info.filesystem = Filesystem.g_raw ∨ info.filesystem = Filesystem.named "yaffs2") ∨
      (E.mtd_find_partition_by_name info.partition_name
        (E.mtd_scan_partitions (E.unmount_mounted_volume v (probe_mount E mp s).2).2).2).1
          = none) :
    (format_root_device E root (World.init s)).1 = -1 ∧
      (∃ fl, (format_root_device E root (World.init s)).2.trace =
          [.get_root_info_for_path root (some info), .get_root_info_for_path root (some info),
           .scan_mounted_volumes (E.scan_mounted_volumes s).1,
           .find_mounted_volume_by_mount_point mp (some v),
           .unmount_mounted_volume v 0] ++ fl ∧
        (∀ e ∈ fl, e.isFlash = true ∧ e.isOpen = false ∧ e.isErase = false) ∧
        (d ≠ Device.g_mtd_device → fl = [])) ∧
      (d ≠ Device.g_mtd_device →
        (format_root_device E root (World.init s)).2.ext =
          (E.unmount_mounted_volume v (probe_mount E mp s).2).2) := by
  rw [format_root_device_mounted E s root info d mp v hc hb hinfo hdev hmp hmounted]
  simp only [hun, lt_self_iff_false, if_false]
  by_cases hd : d = Device.g_mtd_device
  · subst hd
    have hcases : ¬ (info.filesystem = Filesystem.g_raw ∨
          info.filesystem = Filesystem.named "yaffs2") ∨
        (E.mtd_find_partition_by_name info.partition_name
          (E.mtd_scan_partitions (E.unmount_mounted_volume v (probe_mount E mp s).2).2).2).1
            = none := by
      rcases hcannot with h | h | h
      · exact absurd rfl h
      · exact Or.inl h
      · exact Or.inr h
    by_cases hnf : (E.mtd_find_partition_by_name info.partition_name
          (E.mtd_scan_partitions (E.unmount_mounted_volume v (probe_mount E mp s).2).2).2).1
            = none
    · rw [format_device_not_found E root info _ hnf]
      refine ⟨rfl, ⟨_, rfl, ?_, fun h => absurd rfl h⟩, fun h => absurd rfl h⟩
      simp [Event.isFlash, Event.isOpen, Event.isErase]
    · have hfs := hcases.resolve_right hnf
      obtain ⟨evs, msgs, h1, -, h3⟩ := format_device_mtd E root info
        ⟨(E.unmount_mounted_volume v (probe_mount E mp s).2).2,
         [.get_root_info_for_path root (some info), .get_root_info_for_path root (some info),
          .scan_mounted_volumes (E.scan_mounted_volumes s).1,
          .find_mounted_volume_by_mount_point mp (some v),
          .unmount_mounted_volume v 0],
         []⟩
      rw [h1]
      generalize (format_device E root info Device.g_mtd_device _).1 = code at h3
      cases h3 with
      | not_found rs =>
        exact ⟨rfl, ⟨_, rfl, by simp [Event.isFlash, Event.isOpen, Event.isErase],
          fun h => absurd rfl h⟩, fun h => absurd rfl h⟩
      | unsupported rs p _ =>
        exact ⟨rfl, ⟨_, rfl, by simp [Event.isFlash, Event.isOpen, Event.isErase],
          fun h => absurd rfl h⟩, fun h => absurd rfl h⟩
      | open_failed rs p h => exact absurd h hfs
      | erase_failed rs p c rc h => exact absurd h hfs
      | close_failed rs p c re rc h => exact absurd h hfs
      | formatted rs p c re h => exact absurd h hfs
  · rw [format_device_non_mtd E root info d _ hd]
    exact ⟨rfl, ⟨[], by simp [non_mtd_failure, LOGW], by simp, fun _ => rfl⟩, fun _ => rfl⟩

theorem unmount_then_failure_witness :
    IsCString "SDCARD:" ∧ IsBareRoot "SDCARD:" ∧
      (probe_mount sampleCollab "/sdcard" sampleState).1
        = some ⟨"/dev/block/mmcblk0p1", "/sdcard", "vfat"⟩ ∧
      "/sdcard" ∈ sampleState.mounts.map MountedVolume.mount_point ∧
      "/sdcard" ∉ (format_root_device sampleCollab "SDCARD:"
          (World.init sampleState)).2.ext.mounts.map MountedVolume.mount_point ∧
      (format_root_device sampleCollab "SDCARD:" (World.init sampleState)).2.ext.erased = [] ∧
      (format_root_device sampleCollab "SDCARD:" (World.init sampleState)).1 = -1 ∧
      (format_root_device sampleCollab "SDCARD:" (World.init sampleState)).2.trace =
        [.get_root_info_for_path "SDCARD:" (sampleCollab.get_root_info_for_path "SDCARD:"),
         .get_root_info_for_path "SDCARD:" (sampleCollab.get_root_info_for_path "SDCARD:"),
         .scan_mounted_volumes 0,
         .find_mounted_volume_by_mount_point "/sdcard"
           (some ⟨"/dev/block/mmcblk0p1", "/sdcard", "vfat"⟩),
         .unmount_mounted_volume ⟨"/dev/block/mmcblk0p1", "/sdcard", "vfat"⟩ 0] :=
  have h := unmount_then_failure sampleCollab sampleState "SDCARD:"
    ⟨"SDCARD:", some (Device.path "/dev/block/mmcblk0p1"), none, some "/sdcard",
      Filesystem.named "vfat"⟩
    (Device.path "/dev/block/mmcblk0p1") "/sdcard" ⟨"/dev/block/mmcblk0p1", "/sdcard", "vfat"⟩
    (by decide) (by decide) (by decide) rfl rfl (by decide) (by decide)
    (Or.inl (by decide))
  ⟨by decide, by decide, by decide, by decide, by decide, by decide, h.1, by decide⟩

/-- C4: for every bare root that resolves to a descriptor on the flash device
(g_mtd_device) whose filesystem is the raw sentinel g_raw or yaffs2: when the
unmount step does not fail and leaves the collaborators in the state su, and
the flash collaborator, scanned in su, finds the partition of the descriptor as
p, opens it as c, erases it without returning -1 and closes it with 0, then the
flash calls of format_root_device are exactly one mtd_scan_partitions, one
mtd_find_partition_by_name with the partition_name of the descriptor, one
mtd_write_partition of p, one mtd_erase_blocks of -1 blocks on c and one
mtd_write_close of c, in that order and with the results the collaborator gave,
the collaborators are left in the state the close produced, and the function
returns 0. -/
theorem format_flash_partition_calls (E : Collab σ) (s su : σ) (root : String)
    (info : RootInfo) (p : MtdPartition) (c : MtdWriteContext)
    (hc : IsCString root) (hb : IsBareRoot root)
    (hinfo : E.get_root_info_for_path root = some info)
    (hdev : info.device = some Device.g_mtd_device)
    (hfs : info.filesystem = Filesystem.g_raw ∨ info.filesystem = Filesystem.named "yaffs2")
    (hstep : UnmountStepLeaves E info s su)
    (hfind : (flash_found E info.partition_name su).1 = some p)
    (hopen : (flash_opened E info.partition_name p su).1 = some c)
    (herase : (flash_erased E info.partition_name p c su).1 ≠ -1)
    (hclose : (flash_closed E info.partition_name p c su).1 = 0) :
    (format_root_device E root (World.init s)).1 = 0 ∧
      (format_root_device E root (World.init s)).2.trace.filter Event.isFlash =
        [.mtd_scan_partitions (E.mtd_scan_partitions su).1,
         .mtd_find_partition_by_name info.partition_name (some p),
         .mtd_write_partition p (some c),
         .mtd_erase_blocks c (-1) (flash_erased E info.partition_name p c su).1,
         .mtd_write_close c 0] ∧
      (format_root_device E root (World.init s)).2.ext =
        (flash_closed E info.partition_name p c su).2 := by
  rcases hstep with ⟨hmp, hsu⟩ | ⟨mp, hmp, hscan, hprobe, hsu⟩ | ⟨mp, v, hmp, hprobe, hun, hsu⟩
  all_goals subst hsu
  · rw [format_root_device_resolved E root (World.init su) info _ hc hb hinfo hdev]
    simp only [hmp, get_root_info_for_path_eq, hinfo]
    rw [format_device_formatted E root info _ p c hfs hfind hopen herase hclose]
    simp [World.init, Event.isFlash]
  · rw [format_root_device_resolved E root (World.init s) info _ hc hb hinfo hdev]
    simp only [hmp, get_root_info_for_path_eq, hinfo]
    rw [ensure_absent E root _ info mp hinfo hmp (by simpa [World.init] using hscan)
      (by simpa [World.init] using hprobe)]
    simp only [lt_self_iff_false, if_false]
    rw [format_device_formatted E root info _ p c hfs hfind hopen herase hclose]
    simp [World.init, Event.isFlash]
  · rw [format_root_device_mounted E s root info _ mp v hc hb hinfo hdev hmp hprobe]
    simp only [if_neg hun]
    rw [format_device_formatted E root info _ p c hfs hfind hopen herase hclose]
    simp [Event.isFlash]

theorem format_flash_partition_calls_witness :
    IsCString "SYSTEM:" ∧ IsBareRoot "SYSTEM:" ∧
      UnmountStepLeaves sampleCollab
        ⟨"SYSTEM:", some Device.g_mtd_device, some "system", some "/system",
          Filesystem.named "yaffs2"⟩
        sampleState
        { sampleState with
            snapshot := sampleState.mounts
            mounts := [⟨"/dev/block/mtdblock5", "/data", "ext3"⟩,
                       ⟨"/dev/block/mmcblk0p1", "/sdcard", "vfat"⟩] } ∧
      (format_root_device sampleCollab "SYSTEM:" (World.init sampleState)).1 = 0 ∧
      (format_root_device sampleCollab "SYSTEM:" (World.init sampleState)).2.trace.filter
          Event.isFlash =
        [.mtd_scan_partitions 4, .mtd_find_partition_by_name (some "system") (some ⟨2⟩),
         .mtd_write_partition ⟨2⟩ (some ⟨2⟩), .mtd_erase_blocks ⟨2⟩ (-1) 0,
         .mtd_write_close ⟨2⟩ 0] ∧
      (format_root_device sampleCollab "SYSTEM:" (World.init sampleState)).2.ext.erased = [2] ∧
      (format_root_device sampleCollab "SYSTEM:" (World.init sampleState)).2.ext.mounts =
        [⟨"/dev/block/mtdblock5", "/data", "ext3"⟩,
         ⟨"/dev/block/mmcblk0p1", "/sdcard", "vfat"⟩] :=
  have hstep : UnmountStepLeaves sampleCollab
      ⟨"SYSTEM:", some Device.g_mtd_device, some "system", some "/system",
        Filesystem.named "yaffs2"⟩
      sampleState
      { sampleState with
          snapshot := sampleState.mounts
          mounts := [⟨"/dev/block/mtdblock5", "/data", "ext3"⟩,
                     ⟨"/dev/block/mmcblk0p1", "/sdcard", "vfat"⟩] } :=
    Or.inr (Or.inr ⟨"/system", ⟨"/dev/block/mtdblock3", "/system", "yaffs2"⟩,
      rfl, by decide, by decide, by decide⟩)
  have h := format_flash_partition_calls sampleCollab sampleState
    { sampleState with
        snapshot := sampleState.mounts
        mounts := [⟨"/dev/block/mtdblock5", "/data", "ext3"⟩,
                   ⟨"/dev/block/mmcblk0p1", "/sdcard", "vfat"⟩] }
    "SYSTEM:"
    ⟨"SYSTEM:", some Device.g_mtd_device, some "system", some "/system",
      Filesystem.named "yaffs2"⟩
    ⟨2⟩ ⟨2⟩
    (by decide) (by decide) (by decide) rfl (Or.inr rfl) hstep
    (by decide) (by decide) (by decide) (by decide)
  ⟨by decide, by decide, hstep, h.1, h.2.1.trans (by decide), by decide, by decide⟩

/-- C5: format_root_device never reports a partial success.  For every root
and all collaborator outcomes: if it returns 0, then the call trace ends with a
partition-table scan, a partition find that found a partition, an
open-for-write of that partition that gave a context, an erase-all on that
context that did not return -1, and a close of that context that returned 0,
and these are the only flash calls; and if any mtd_write_close in the trace
returned non-zero (also after a successful erase), the function returns
non-zero. -/
theorem success_only_after_erase_and_close (E : Collab σ) (s : σ) (root : String) :
    ((format_root_device E root (World.init s)).1 = 0 →
      ∃ pre rs pn p c re,
        (format_root_device E root (World.init s)).2.trace =
          pre ++ [.mtd_scan_partitions rs, .mtd_find_partition_by_name pn (some p),
                  .mtd_write_partition p (some c), .mtd_erase_blocks c (-1) re,
                  .mtd_write_close c 0] ∧
        re ≠ -1 ∧ ∀ e ∈ pre, e.isFlash = false) ∧
    (∀ c rc, Event.mtd_write_close c rc ∈ (format_root_device E root (World.init s)).2.trace →
      rc ≠ 0 → (format_root_device E root (World.init s)).1 ≠ 0) := by
  obtain ⟨pre, fl, h1, h2, h3⟩ := format_root_device_shape E root s
  rw [h1]
  generalize (format_root_device E root (World.init s)).1 = code at h3
  rcases h3 with ⟨rfl, hneg⟩ | ⟨info, msgs, hout⟩
  · exact ⟨fun h => absurd hneg (by simp [h]), fun _ _ _ _ h => absurd hneg (by simp [h])⟩
  · have hnot : ∀ c rc, Event.mtd_write_close c rc ∉ pre := by
      intro c rc hmem
      simpa [Event.isFlash] using h2 _ hmem
    cases hout with
    | not_found rs => exact ⟨fun h => by simp at h, fun _ _ _ _ => by simp⟩
    | unsupported rs p _ => exact ⟨fun h => by simp at h, fun _ _ _ _ => by simp⟩
    | open_failed rs p _ => exact ⟨fun h => by simp at h, fun _ _ _ _ => by simp⟩
    | erase_failed rs p c rc _ => exact ⟨fun h => by simp at h, fun _ _ _ _ => by simp⟩
    | close_failed rs p c re rc _ _ _ => exact ⟨fun h => by simp at h, fun _ _ _ _ => by simp⟩
    | formatted rs p c re _ hre =>
      refine ⟨fun _ => ⟨pre, rs, _, p, c, re, rfl, hre, h2⟩, ?_⟩
      intro c2 rc hmem hrc
      simp only [List.mem_append, List.mem_cons, List.mem_singleton, List.not_mem_nil,
        or_false] at hmem
      rcases hmem with hmem | hmem
      · exact absurd hmem (hnot c2 rc)
      · simp at hmem
        exact absurd hmem.2 hrc

theorem success_only_after_erase_and_close_witness :
    (format_root_device sampleCollab "SYSTEM:"
        (World.init { sampleState with close_fails := true })).1 ≠ 0 :=
  (success_only_after_erase_and_close sampleCollab { sampleState with close_fails := true }
    "SYSTEM:").2 ⟨2⟩ (-1) (by decide) (by decide)

/-- C9: in every call trace of format_root_device, a successful open-for-write
(mtd_write_partition returning a context) is followed by the erase on that
context and then by exactly one mtd_write_close on that context, which is the
last call before the function returns (no open, erase or close comes before the
open); when the erase fails (returns -1) the context is closed all the same and
the function returns -1.  And every erase or close call in the trace comes
after a successful partition find and a successful open of the partition found,
and acts on the context that open returned. -/
theorem write_session_closed_exactly_once (E : Collab σ) (s : σ) (root : String) :
    (∀ p c, Event.mtd_write_partition p (some c) ∈
        (format_root_device E root (World.init s)).2.trace →
      ∃ pre re rc,
        (format_root_device E root (World.init s)).2.trace =
          pre ++ [.mtd_write_partition p (some c), .mtd_erase_blocks c (-1) re,
                  .mtd_write_close c rc] ∧
        (∀ e ∈ pre, e.isOpen = false ∧ e.isErase = false ∧ e.isClose = false) ∧
        (re = -1 → (format_root_device E root (World.init s)).1 = -1)) ∧
    (∀ pre e post, (format_root_device E root (World.init s)).2.trace = pre ++ e :: post →
      (e.isErase = true ∨ e.isClose = true) →
      ∃ n p c, Event.mtd_find_partition_by_name n (some p) ∈ pre ∧
        Event.mtd_write_partition p (some c) ∈ pre ∧
        ((∃ re, e = .mtd_erase_blocks c (-1) re) ∨ ∃ rc, e = .mtd_write_close c rc)) := by
  obtain ⟨pre0, fl, h1, h2, h3⟩ := format_root_device_shape E root s
  rw [h1]
  generalize (format_root_device E root (World.init s)).1 = code at h3
  have hpre0 : ∀ e ∈ pre0, e.isOpen = false ∧ e.isErase = false ∧ e.isClose = false :=
    fun e he => Event.not_session_of_not_isFlash (h2 e he)
  have hopen0 : ∀ p c, Event.mtd_write_partition p (some c) ∉ pre0 := by
    intro p c hmem
    simpa [Event.isOpen] using (hpre0 _ hmem).1
  -- runs without a write session: no successful open, no erase, no close
  have hnone : (∀ e ∈ fl, e.isOpened = false ∧ e.isErase = false ∧ e.isClose = false) →
      (∀ p c, Event.mtd_write_partition p (some c) ∈ pre0 ++ fl →
        ∃ pre re rc,
          pre0 ++ fl = pre ++ [.mtd_write_partition p (some c), .mtd_erase_blocks c (-1) re,
            .mtd_write_close c rc] ∧
          (∀ e ∈ pre, e.isOpen = false ∧ e.isErase = false ∧ e.isClose = false) ∧
          (re = -1 → code = -1)) ∧
      (∀ pre e post, pre0 ++ fl = pre ++ e :: post → (e.isErase = true ∨ e.isClose = true) →
        ∃ n p c, Event.mtd_find_partition_by_name n (some p) ∈ pre ∧
          Event.mtd_write_partition p (some c) ∈ pre ∧
          ((∃ re, e = .mtd_erase_blocks c (-1) re) ∨ ∃ rc, e = .mtd_write_close c rc)) := by
    intro hfl
    refine ⟨fun p c hmem => ?_, fun pre e post h he => ?_⟩
    · exfalso
      rcases List.mem_append.mp hmem with hmem | hmem
      · exact hopen0 p c hmem
      · simpa [Event.isOpened] using (hfl _ hmem).1
    · exfalso
      have hall : ∀ x ∈ pre0 ++ fl, x.isErase = false ∧ x.isClose = false := by
        intro x hx
        rcases List.mem_append.mp hx with hx | hx
        · exact (hpre0 x hx).2
        · exact (hfl x hx).2
      have hmem : e ∈ pre0 ++ fl := by rw [h]; simp
      have := hall e hmem
      rcases he with he | he
      · rw [he] at this
        exact absurd this.1 (by simp)
      · rw [he] at this
        exact absurd this.2 (by simp)
  -- runs with a write session: open, erase, close are the last three calls
  have hsession : ∀ (rs : Int) (n : Option String) (p0 : MtdPartition) (c0 : MtdWriteContext)
      (re rc : Int),
      fl = [.mtd_scan_partitions rs, .mtd_find_partition_by_name n (some p0),
            .mtd_write_partition p0 (some c0), .mtd_erase_blocks c0 (-1) re,
            .mtd_write_close c0 rc] →
      (re = -1 → code = -1) →
      (∀ p c, Event.mtd_write_partition p (some c) ∈ pre0 ++ fl →
        ∃ pre re rc,
          pre0 ++ fl = pre ++ [.mtd_write_partition p (some c), .mtd_erase_blocks c (-1) re,
            .mtd_write_close c rc] ∧
          (∀ e ∈ pre, e.isOpen = false ∧ e.isErase = false ∧ e.isClose = false) ∧
          (re = -1 → code = -1)) ∧
      (∀ pre e post, pre0 ++ fl = pre ++ e :: post → (e.isErase = true ∨ e.isClose = true) →
        ∃ n p c, Event.mtd_find_partition_by_name n (some p) ∈ pre ∧
          Event.mtd_write_partition p (some c) ∈ pre ∧
          ((∃ re, e = .mtd_erase_blocks c (-1) re) ∨ ∃ rc, e = .mtd_write_close c rc)) := by
    intro rs n p0 c0 re rc hfl hcode
    subst hfl
    refine ⟨fun p c hmem => ?_, fun pre e post h he => ?_⟩
    · rcases List.mem_append.mp hmem with hmem | hmem
      · exact absurd hmem (hopen0 p c)
      · simp at hmem
        obtain ⟨rfl, rfl⟩ := hmem
        refine ⟨pre0 ++ [.mtd_scan_partitions rs, .mtd_find_partition_by_name n (some p)],
          re, rc, by simp, ?_, hcode⟩
        intro e he
        rcases List.mem_append.mp he with he | he
        · exact hpre0 e he
        · simp at he
          rcases he with rfl | rfl <;> simp [Event.isOpen, Event.isErase, Event.isClose]
    · have hX : ∀ x ∈ pre0 ++ [Event.mtd_scan_partitions rs,
          .mtd_find_partition_by_name n (some p0), .mtd_write_partition p0 (some c0)],
          x.isErase = false ∧ x.isClose = false := by
        intro x hx
        rcases List.mem_append.mp hx with hx | hx
        · exact (hpre0 x hx).2
        · simp at hx
          rcases hx with rfl | rfl | rfl <;> simp [Event.isErase, Event.isClose]
      have h' : (pre0 ++ [Event.mtd_scan_partitions rs,
          .mtd_find_partition_by_name n (some p0), .mtd_write_partition p0 (some c0)]) ++
          [.mtd_erase_blocks c0 (-1) re, .mtd_write_close c0 rc] = pre ++ e :: post := by
        rw [← h]
        simp
      obtain ⟨a, ha, hb⟩ := split_at_erase_or_close hX h' he
      refine ⟨n, p0, c0, by rw [ha]; simp, by rw [ha]; simp, ?_⟩
      have hmem : e ∈ [Event.mtd_erase_blocks c0 (-1) re, .mtd_write_close c0 rc] := by
        rw [hb]
        simp
      simp at hmem
      rcases hmem with rfl | rfl
      · exact Or.inl ⟨re, rfl⟩
      · exact Or.inr ⟨rc, rfl⟩
  rcases h3 with ⟨rfl, hneg⟩ | ⟨info, msgs, hout⟩
  · exact hnone (by simp)
  · cases hout with
    | not_found rs => exact hnone (by simp [Event.isOpened, Event.isErase, Event.isClose])
    | unsupported rs p0 _ =>
      exact hnone (by simp [Event.isOpened, Event.isErase, Event.isClose])
    | open_failed rs p0 _ =>
      exact hnone (by simp [Event.isOpened, Event.isErase, Event.isClose])
    | erase_failed rs p0 c0 rc _ => exact hsession rs _ p0 c0 (-1) rc rfl (fun _ => rfl)
    | close_failed rs p0 c0 re rc _ _ _ => exact hsession rs _ p0 c0 re rc rfl (fun _ => rfl)
    | formatted rs p0 c0 re _ hre =>
      exact hsession rs _ p0 c0 re 0 rfl (fun h => absurd h hre)

theorem write_session_closed_exactly_once_witness :
    ∃ pre re rc,
      (format_root_device sampleCollab "BOOT:"
          (World.init { sampleState with worn := [0] })).2.trace =
        pre ++ [.mtd_write_partition ⟨0⟩ (some ⟨0⟩), .mtd_erase_blocks ⟨0⟩ (-1) re,
                .mtd_write_close ⟨0⟩ rc] ∧
      (∀ e ∈ pre, e.isOpen = false ∧ e.isErase = false ∧ e.isClose = false) ∧
      (re = -1 → (format_root_device sampleCollab "BOOT:"
          (World.init { sampleState with worn := [0] })).1 = -1) :=
  (write_session_closed_exactly_once sampleCollab { sampleState with worn := [0] }
    "BOOT:").1 ⟨0⟩ ⟨0⟩ (by decide)

/-- C6, as stated, fails: on the sample device the root DATA: is a bare root
whose descriptor is on the flash device with the filesystem ext3 (neither the
raw sentinel nor yaffs2), its mount point /data is mounted and busy, and
format_root_device returns the result of the failed unmount after the
diagnostic of line 55; it never reaches the unsupported-device failure of lines
89 and 90. -/
theorem unsupported_device_failure_counterexample :
    IsCString "DATA:" ∧ IsBareRoot "DATA:" ∧
      (∃ info, sampleCollab.get_root_info_for_path "DATA:" = some info ∧
        info.filesystem ≠ Filesystem.g_raw ∧ info.filesystem ≠ Filesystem.named "yaffs2") ∧
      (format_root_device sampleCollab "DATA:" (World.init sampleState)).2.log
        = [msg_cant_unmount "DATA:"] ∧
      ¬ IsUnsupportedDeviceFailure "DATA:"
          (format_root_device sampleCollab "DATA:" (World.init sampleState)) :=
  ⟨by decide, by decide, ⟨_, rfl, by decide, by decide⟩, by decide, by decide⟩

/-- C6, amended: for every bare root whose descriptor has a device, when the
device is not the flash device or the filesystem identifier is neither the raw
sentinel g_raw nor yaffs2, format_root_device returns a negative status and its
call trace contains no open-for-write and no erase call; and when no call of
the run fails (the unmount step does not fail and, on the flash device, the
partition is found), the failure is the unsupported-device failure: -1 after
the diagnostic of line 89. -/
theorem unsupported_device_failure (E : Collab σ) (s : σ) (root : String) (info : RootInfo)
    (d : Device) (hc : IsCString root) (hb : IsBareRoot root)
    (hinfo : E.get_root_info_for_path root = some info) (hdev : info.device = some d)
    (hun : d ≠ Device.g_mtd_device ∨
      ¬ (info.filesystem = Filesystem.g_raw ∨ info.filesystem = Filesystem.named "yaffs2")) :
    (format_root_device E root (World.init s)).1 < 0 ∧
      (∀ e ∈ (format_root_device E root (World.init s)).2.trace,
        e.isOpen = false ∧ e.isErase = false) ∧
      ((∀ e ∈ (format_root_device E root (World.init s)).2.trace, e.failed = false) →
        IsUnsupportedDeviceFailure root (format_root_device E root (World.init s))) := by
  have hblock : ∀ (w : World σ),
      (∀ e ∈ w.trace, e.isFlash = false) →
      (format_device E root info d w).1 < 0 ∧
        (∀ e ∈ (format_device E root info d w).2.trace, e.isOpen = false ∧ e.isErase = false) ∧
        ((∀ e ∈ (format_device E root info d w).2.trace, e.failed = false) →
          IsUnsupportedDeviceFailure root (format_device E root info d w)) := by
    intro w hw
    have hw2 : ∀ e ∈ w.trace, e.isOpen = false ∧ e.isErase = false :=
      fun e he => ⟨(Event.not_session_of_not_isFlash (hw e he)).1,
        (Event.not_session_of_not_isFlash (hw e he)).2.1⟩
    by_cases hd : d = Device.g_mtd_device
    · subst hd
      have hfs := hun.resolve_left (fun h => h rfl)
      obtain ⟨evs, msgs, h1, h2, h3⟩ := format_device_mtd E root info w
      unfold IsUnsupportedDeviceFailure
      rw [h1, h2]
      generalize (format_device E root info Device.g_mtd_device w).1 = code at h3
      cases h3 with
      | not_found rs =>
        refine ⟨by simp, ?_, fun hgood => ?_⟩
        · intro e he
          rcases List.mem_append.mp he with he | he
          · exact hw2 e he
          · simp at he
            rcases he with rfl | rfl <;> simp [Event.isOpen, Event.isErase]
        · exact absurd (hgood (.mtd_find_partition_by_name info.partition_name none) (by simp))
            (by simp [Event.failed])
      | unsupported rs p _ =>
        refine ⟨by simp, ?_, fun _ => ⟨rfl, by simp⟩⟩
        intro e he
        rcases List.mem_append.mp he with he | he
        · exact hw2 e he
        · simp at he
          rcases he with rfl | rfl <;> simp [Event.isOpen, Event.isErase]
      | open_failed rs p h => exact absurd h hfs
      | erase_failed rs p c rc h => exact absurd h hfs
      | close_failed rs p c re rc h => exact absurd h hfs
      | formatted rs p c re h => exact absurd h hfs
    · rw [format_device_non_mtd E root info d w hd]
      exact ⟨by simp [non_mtd_failure], by simpa [non_mtd_failure, LOGW] using hw2,
        fun _ => ⟨rfl, by simp [non_mtd_failure, LOGW]⟩⟩
  rw [format_root_device_resolved E root (World.init s) info d hc hb hinfo hdev]
  simp only [get_root_info_for_path_eq, hinfo]
  cases hmp : info.mount_point with
  | none =>
    dsimp only
    exact hblock _ (by simp [World.init, Event.isFlash])
  | some mp =>
    dsimp only
    obtain ⟨evs, h1, -, h3, h4⟩ := ensure_trace E root
      (⟨(World.init s).ext, (World.init s).trace ++ [.get_root_info_for_path root (some info)],
        (World.init s).log⟩ : World σ)
    have hpre : ∀ e ∈ (ensure_root_path_unmounted E root
        (⟨(World.init s).ext, (World.init s).trace ++ [.get_root_info_for_path root (some info)],
          (World.init s).log⟩ : World σ)).2.trace, e.isFlash = false := by
      rw [h1]
      intro e he
      simp only [World.init, List.nil_append, List.mem_append, List.mem_singleton] at he
      rcases he with rfl | he
      · rfl
      · exact h3 e he
    split
    · rename_i hneg
      refine ⟨hneg, ?_, fun hgood => ?_⟩
      · intro e he
        have := Event.not_session_of_not_isFlash (hpre e (by simpa [LOGW] using he))
        exact ⟨this.1, this.2.1⟩
      · exfalso
        obtain ⟨e, he, hfailed⟩ := h4 (by simp [hinfo]) hneg
        have := hgood e (by simp only [LOGW]; rw [h1]; exact List.mem_append_right _ he)
        rw [hfailed] at this
        exact absurd this (by simp)
    · exact hblock _ hpre

theorem unsupported_device_failure_witness :
    IsCString "MISC:" ∧ IsBareRoot "MISC:" ∧
      (format_root_device sampleCollab "MISC:" (World.init sampleState)).1 < 0 ∧
      (∀ e ∈ (format_root_device sampleCollab "MISC:" (World.init sampleState)).2.trace,
        e.isOpen = false ∧ e.isErase = false) ∧
      IsUnsupportedDeviceFailure "MISC:"
        (format_root_device sampleCollab "MISC:" (World.init sampleState)) :=
  have h := unsupported_device_failure sampleCollab sampleState "MISC:"
    ⟨"MISC:", some Device.g_mtd_device, some "misc", none, Filesystem.named "ext3"⟩
    Device.g_mtd_device (by decide) (by decide) (by decide) rfl (Or.inr (by decide))
  ⟨by decide, by decide, h.1, h.2.1, h.2.2 (by decide)⟩

/-- C8: ensure_root_path_unmounted equals its reference definition for every
collaborator, every root path and every world it is called in: -1 and no mount
call for an unknown root; 0 with no scan and no unmount for a descriptor without
mount point; otherwise one fresh scan, and the code of the scan with no find and
no unmount when the scan fails, 0 with no unmount when the mount point is not in
the snapshot, and otherwise exactly one unmount of the volume found, whose
result is returned unchanged. -/
theorem ensure_root_path_unmounted_eq_ref (E : Collab σ) (root_path : String) (w : World σ) :
    ensure_root_path_unmounted E root_path w = ensure_root_path_unmounted_ref E root_path w := by
  unfold ensure_root_path_unmounted ensure_root_path_unmounted_ref
  simp only [Ext.get_root_info_for_path, Ext.scan_mounted_volumes,
    Ext.find_mounted_volume_by_mount_point, Ext.unmount_mounted_volume]
  cases hinfo : E.get_root_info_for_path root_path with
  | none => rfl
  | some info =>
    dsimp only
    cases hmp : info.mount_point with
    | none => rfl
    | some mp =>
      dsimp only
      split
      · simp
      · cases hf : (E.find_mounted_volume_by_mount_point mp
            (E.scan_mounted_volumes w.ext).2).1 with
        | none => simp
        | some v => simp

end Claims

end Recovery
